import Mathlib

/-!
Verification of the catenary-fitting core of `bubble-cosh`
(`src/community/bubble-cosh-databooth.py`).

Modelling conventions:
* Python floats are modelled as real numbers `ℝ`; the loop bookkeeping is
  stated generically over a `LinearOrderedField` so that concrete runs can be
  evaluated over `ℚ`.
* The `try/except` around the boundary-error formula is modelled by the one
  arithmetic fault expressible over the reals: division by zero when `a = 0`
  (float `cosh` overflow has no real-number counterpart).
* The unbounded `while` loop of `fit_parameters` is modelled with explicit
  fuel; `fitNext` is one loop iteration, returning either the next loop state
  (`Sum.inl`) or the function's return value (`Sum.inr`).
* The `summary` printing method is modelled as the list of printed lines,
  each line carrying its constant text (with `_` placeholders), the numeric
  values interpolated into it, and the decimal precision of the format spec
  (`none` for plain `str` formatting, `some 7` for `:.7f`).
-/

namespace BubbleCosh

/-- Bookkeeping of the 3×3 grid scan inside one round of `fit_parameters`:
`best_error`, `best_a`, `best_b`, `improved` of the Python source. -/
structure RoundState (α : Type) where
  bestError : α
  bestA : α
  bestB : α
  improved : Bool
deriving DecidableEq

/-- The mutable locals of the `while` loop of `fit_parameters`:
`step`, `error`, `a`, `b`. -/
structure LoopState (α : Type) where
  step : α
  error : α
  a : α
  b : α
deriving DecidableEq

variable {α : Type} [LinearOrderedField α]

/-- Constant `Catenary.INF = 1e12`, the sentinel score. -/
def INF : α := 10 ^ 12

/-- Constant `Catenary.DEFAULT_A = 1.0`. -/
def DEFAULT_A : α := 1

/-- Constant `Catenary.DEFAULT_B = 1.0`. -/
def DEFAULT_B : α := 1

/-- Constant `Catenary.DEFAULT_STEP = 0.1`. -/
def DEFAULT_STEP : α := 1 / 10

/-- Constant `Catenary.STEP_REDUCTION_FACTOR = 10.0`. -/
def STEP_REDUCTION_FACTOR : α := 10

/-- Constant `Catenary.DEFAULT_PRECISION = 1e-7`. -/
def DEFAULT_PRECISION : α := 1 / 10 ^ 7

/-- The body of the inner grid loop of `fit_parameters`: evaluate one
candidate `(ca, cb)` and adopt it as the round's best exactly when its error
is strictly below the best seen so far. -/
def scanCandidate (f : α → α → α) (r : RoundState α) (ca cb : α) : RoundState α :=
  if f ca cb < r.bestError then ⟨f ca cb, ca, cb, true⟩ else r

/-- One round of `fit_parameters`: the two nested `for` loops over
`[a - step, a, a + step]` (outer) and `[b - step, b, b + step]` (inner),
starting from `best_error = error`, `best_a, best_b = a, b`,
`improved = False`. -/
def scanRound (f : α → α → α) (a b stp e : α) : RoundState α :=
  [a - stp, a, a + stp].foldl
    (fun r ca => [b - stp, b, b + stp].foldl (fun r cb => scanCandidate f r ca cb) r)
    ⟨e, a, b, false⟩

/-- One iteration of the `while error > precision` loop of `fit_parameters`.
`Sum.inr` is the value returned by the function (on the normal exit of the
`while` condition, or on `break`); `Sum.inl` is the loop state carried into
the next iteration. -/
def fitNext (f : α → α → α) (precision : α) (s : LoopState α) :
    LoopState α ⊕ (α × α) :=
  if precision < s.error then
    let r := scanRound f s.a s.b s.step s.error
    if r.improved then Sum.inl ⟨s.step, r.bestError, r.bestA, r.bestB⟩
    else
      let stp := s.step / STEP_REDUCTION_FACTOR
      if stp < precision then Sum.inr (s.a, s.b)
      else Sum.inl ⟨stp, s.error, s.a, s.b⟩
  else Sum.inr (s.a, s.b)

/-- The `while` loop of `fit_parameters`, run with explicit fuel; `none`
means the fuel ran out before the loop exited. -/
def fitLoop (f : α → α → α) (precision : α) : ℕ → LoopState α → Option (α × α)
  | 0, _ => none
  | fuel + 1, s =>
    match fitNext f precision s with
    | Sum.inr ab => some ab
    | Sum.inl s' => fitLoop f precision fuel s'

/-- The `Catenary` object: `diameter` and `span` are set at construction,
`a` and `b` are the mutable fit outputs (initialised to the defaults by
`__init__`). -/
structure Catenary where
  diameter : ℝ
  span : ℝ
  a : ℝ
  b : ℝ

/-- Method `Catenary._boundary_error`: the sum of absolute endpoint errors
`|a·cosh((0−b)/a) − diameter/2| + |a·cosh((span−b)/a) − diameter/2|`,
with the `try/except` modelled as: on the arithmetic fault `a = 0`
(division by zero), return the sentinel `INF = 1e12`. -/
noncomputable def boundary_error (c : Catenary) (a b : ℝ) : ℝ :=
  if a = 0 then INF
  else
    |a * Real.cosh ((0 - b) / a) - c.diameter / 2| +
      |a * Real.cosh ((c.span - b) / a) - c.diameter / 2|

/-- Method `Catenary.fit_parameters`: initialise `step = DEFAULT_STEP`,
`error = INF`, `(a, b) = (DEFAULT_A, DEFAULT_B)`, run the search loop, then
store the result into `self.a, self.b` and return `(a, b)`. The returned
triple is (updated object, a, b); `none` only when the fuel ran out. -/
noncomputable def fit_parameters (c : Catenary) (precision : ℝ) (fuel : ℕ) :
    Option (Catenary × ℝ × ℝ) :=
  match fitLoop (boundary_error c) precision fuel
      ⟨DEFAULT_STEP, INF, DEFAULT_A, DEFAULT_B⟩ with
  | some (a, b) => some ({ c with a := a, b := b }, a, b)
  | none => none

/-- Method `Catenary.area_under_curve`: `π·a²·(sinh(span/a) + span/a)`. -/
noncomputable def area_under_curve (c : Catenary) : ℝ :=
  Real.pi * c.a ^ 2 * (Real.sinh (c.span / c.a) + c.span / c.a)

/-- Method `Catenary.midpoint_radius`: `a·cosh((span/2 − b)/a)`. -/
noncomputable def midpoint_radius (c : Catenary) : ℝ :=
  c.a * Real.cosh ((c.span / 2 - c.b) / c.a)

/-- Method `Catenary.midpoint_dip`: `diameter/2 − midpoint_radius()`. -/
noncomputable def midpoint_dip (c : Catenary) : ℝ :=
  c.diameter / 2 - midpoint_radius c

/-- Method `Catenary.midpoint_gap`: `2 * midpoint_radius()`. -/
noncomputable def midpoint_gap (c : Catenary) : ℝ :=
  2 * midpoint_radius c

/-- One printed line of `Catenary.summary`: the fixed text with `_` marking
the interpolation slots, the interpolated numeric values in order, and the
decimal count of the format spec (`none` for plain `str`, `some 7` for
`:.7f`). -/
structure SummaryLine where
  label : String
  values : List ℝ
  decimals : Option ℕ

/-- Method `Catenary.summary`: the sequence of `print` calls, line by line. -/
noncomputable def summary (c : Catenary) : List SummaryLine :=
  [⟨"Catenary for diameter _ and span _:", [c.diameter, c.span], none⟩,
   ⟨"  Parameters (a, b): (_, _)", [c.a, c.b], some 7⟩,
   ⟨"  Area under curve: _", [area_under_curve c], some 7⟩,
   ⟨"  Midpoint dip: _", [midpoint_dip c], some 7⟩,
   ⟨"  Midpoint gap: _", [midpoint_gap c], some 7⟩]

/-! ### Spec-side description of one grid round

These definitions follow the specification's wording (§4.2, edge cases),
not the source: the nine candidates listed explicitly in the stated
iteration order, and the round characterised as "the first candidate in
this order achieving the strictly lowest value wins, with the comparison
baseline seeded at the current error". They exist to be compared with the
source-side `scanRound`. -/

/-- The nine grid candidates in the iteration order stated by the spec. -/
def gridCandidates (a b stp : α) : List (α × α) :=
  [(a - stp, b - stp), (a - stp, b), (a - stp, b + stp),
   (a, b - stp), (a, b), (a, b + stp),
   (a + stp, b - stp), (a + stp, b), (a + stp, b + stp)]

/-- Minimum of the baseline `e` and the errors of the candidates of `l`. -/
def runMin (f : α → α → α) (e : α) (l : List (α × α)) : α :=
  l.foldl (fun m c => min m (f c.1 c.2)) e

/-- Spec-side selection over a candidate list: if the lowest error seen this
round is strictly below the baseline `r.bestError`, the winner is the first
candidate in list order achieving that lowest value, and the round reports
improvement; otherwise the incoming state is kept unchanged. -/
def specSel (f : α → α → α) (r : RoundState α) (l : List (α × α)) : RoundState α :=
  if runMin f r.bestError l < r.bestError then
    match l.find? (fun c => decide (f c.1 c.2 ≤ runMin f r.bestError l)) with
    | some c => ⟨runMin f r.bestError l, c.1, c.2, true⟩
    | none => r
  else r

/-- Spec-side description of one full round of the search. -/
def specRound (f : α → α → α) (a b stp e : α) : RoundState α :=
  specSel f ⟨e, a, b, false⟩ (gridCandidates a b stp)

/-! ### Helper lemmas about the grid scan -/

/-- The source's nested fold over a candidate list. -/
def selList (f : α → α → α) (r : RoundState α) (l : List (α × α)) : RoundState α :=
  l.foldl (fun r c => scanCandidate f r c.1 c.2) r

theorem runMin_cons (f : α → α → α) (e : α) (c : α × α) (t : List (α × α)) :
    runMin f e (c :: t) = runMin f (min e (f c.1 c.2)) t := rfl

theorem runMin_le (f : α → α → α) :
    ∀ (l : List (α × α)) (e : α), runMin f e l ≤ e := by
  intro l
  induction l with
  | nil => intro e; exact le_refl e
  | cons c t ih =>
    intro e
    calc runMin f e (c :: t) = runMin f (min e (f c.1 c.2)) t := rfl
      _ ≤ min e (f c.1 c.2) := ih _
      _ ≤ e := min_le_left _ _

theorem runMin_eq_or_mem (f : α → α → α) :
    ∀ (l : List (α × α)) (e : α),
      runMin f e l = e ∨ ∃ c ∈ l, f c.1 c.2 = runMin f e l := by
  intro l
  induction l with
  | nil => intro e; exact Or.inl rfl
  | cons c t ih =>
    intro e
    rw [runMin_cons]
    rcases le_total e (f c.1 c.2) with h | h
    · rw [min_eq_left h]
      rcases ih e with h1 | ⟨c', hc', h2⟩
      · exact Or.inl h1
      · exact Or.inr ⟨c', List.mem_cons_of_mem _ hc', h2⟩
    · rw [min_eq_right h]
      rcases ih (f c.1 c.2) with h1 | ⟨c', hc', h2⟩
      · exact Or.inr ⟨c, List.mem_cons_self _ _, h1.symm⟩
      · exact Or.inr ⟨c', List.mem_cons_of_mem _ hc', h2⟩

theorem selList_eq_specSel (f : α → α → α) :
    ∀ (l : List (α × α)) (r : RoundState α), selList f r l = specSel f r l := by
  intro l
  induction l with
  | nil =>
    intro r
    simp [selList, specSel, runMin]
  | cons c t ih =>
    intro r
    have hstep : selList f r (c :: t) = selList f (scanCandidate f r c.1 c.2) t := rfl
    rw [hstep, ih]
    by_cases h1 : f c.1 c.2 < r.bestError
    · -- the head candidate strictly improves on the incoming baseline
      have hsc : scanCandidate f r c.1 c.2 = ⟨f c.1 c.2, c.1, c.2, true⟩ :=
        if_pos h1
      rw [hsc]
      have hmin : runMin f r.bestError (c :: t) = runMin f (f c.1 c.2) t := by
        rw [runMin_cons, min_eq_right h1.le]
      have hle : runMin f (f c.1 c.2) t ≤ f c.1 c.2 := runMin_le f t _
      by_cases h2 : f c.1 c.2 ≤ runMin f (f c.1 c.2) t
      · -- the head achieves the round minimum: both sides pick the head
        have heq : runMin f (f c.1 c.2) t = f c.1 c.2 := le_antisymm hle h2
        have hcond : ¬ runMin f (f c.1 c.2) t < f c.1 c.2 := by
          rw [heq]; exact lt_irrefl _
        have hlhs : specSel f ⟨f c.1 c.2, c.1, c.2, true⟩ t =
            ⟨f c.1 c.2, c.1, c.2, true⟩ := by
          unfold specSel
          exact if_neg hcond
        have hrhs : specSel f r (c :: t) = ⟨f c.1 c.2, c.1, c.2, true⟩ := by
          unfold specSel
          rw [hmin, heq, if_pos h1,
            List.find?_cons_of_pos _ (by simp [le_refl])]
        rw [hlhs, hrhs]
      · -- some later candidate is strictly lower than the head
        have hlt : runMin f (f c.1 c.2) t < f c.1 c.2 := not_le.mp h2
        have hfind : (c :: t).find? (fun c' => decide (f c'.1 c'.2 ≤ runMin f (f c.1 c.2) t)) =
            t.find? (fun c' => decide (f c'.1 c'.2 ≤ runMin f (f c.1 c.2) t)) := by
          apply List.find?_cons_of_neg
          simp only [decide_eq_true_eq, not_le]
          exact hlt
        have hlt0 : runMin f (f c.1 c.2) t < r.bestError := lt_trans hlt h1
        unfold specSel
        dsimp only
        rw [hmin, if_pos hlt0, if_pos hlt, hfind]
        rcases hnone : t.find? (fun c' => decide (f c'.1 c'.2 ≤ runMin f (f c.1 c.2) t)) with
          _ | c'
        · -- impossible: the minimum over a list is attained by some member
          rcases runMin_eq_or_mem f t (f c.1 c.2) with h3 | ⟨c', hc', h3⟩
          · rw [h3] at hlt; exact absurd hlt (lt_irrefl _)
          · have := List.find?_eq_none.mp hnone c' hc'
            simp only [decide_eq_true_eq, not_le] at this
            rw [h3] at this
            exact absurd this (lt_irrefl _)
        · rw [hnone]
    · -- the head candidate does not improve: it is skipped on both sides
      have hsc : scanCandidate f r c.1 c.2 = r := if_neg h1
      rw [hsc]
      have hge : r.bestError ≤ f c.1 c.2 := not_lt.mp h1
      have hmin : runMin f r.bestError (c :: t) = runMin f r.bestError t := by
        rw [runMin_cons, min_eq_left hge]
      by_cases h2 : runMin f r.bestError t < r.bestError
      · have hfind : (c :: t).find? (fun c' => decide (f c'.1 c'.2 ≤ runMin f r.bestError t)) =
            t.find? (fun c' => decide (f c'.1 c'.2 ≤ runMin f r.bestError t)) := by
          apply List.find?_cons_of_neg
          simp only [decide_eq_true_eq, not_le]
          exact lt_of_lt_of_le h2 hge
        unfold specSel
        rw [hmin, if_pos h2, if_pos h2, hfind]
      · unfold specSel
        rw [hmin, if_neg h2, if_neg h2]

theorem scanRound_eq_selList (f : α → α → α) (a b stp e : α) :
    scanRound f a b stp e = selList f ⟨e, a, b, false⟩ (gridCandidates a b stp) := rfl

/-- Splitting a round's outcome: either nothing beat the baseline and the
state is returned untouched, or the round improved and its best error is
strictly below the incoming error. -/
theorem scanRound_cases (f : α → α → α) (a b stp e : α) :
    scanRound f a b stp e = ⟨e, a, b, false⟩ ∨
      ((scanRound f a b stp e).improved = true ∧
        (scanRound f a b stp e).bestError < e) := by
  rw [scanRound_eq_selList, selList_eq_specSel]
  unfold specSel
  dsimp only
  by_cases h : runMin f e (gridCandidates a b stp) < e
  · rw [if_pos h]
    rcases hfind : (gridCandidates a b stp).find?
        (fun c => decide (f c.1 c.2 ≤ runMin f e (gridCandidates a b stp))) with _ | c
    · rw [hfind]
      exact Or.inl rfl
    · rw [hfind]
      exact Or.inr ⟨rfl, h⟩
  · rw [if_neg h]
    exact Or.inl rfl

/-- If no candidate scores strictly below the baseline, the nested scan
returns its input unchanged. -/
theorem selList_no_improve (f : α → α → α) :
    ∀ (l : List (α × α)) (r : RoundState α),
      (∀ c ∈ l, ¬ f c.1 c.2 < r.bestError) → selList f r l = r := by
  intro l
  induction l with
  | nil => intro r _; rfl
  | cons c t ih =>
    intro r h
    have hsc : scanCandidate f r c.1 c.2 = r :=
      if_neg (h c (List.mem_cons_self _ _))
    have hstep : selList f r (c :: t) = selList f (scanCandidate f r c.1 c.2) t := rfl
    rw [hstep, hsc]
    exact ih r fun c' hc' => h c' (List.mem_cons_of_mem _ hc')

/-- The boundary error is never negative: it is either the sentinel `1e12`
or a sum of two absolute values. -/
theorem boundary_error_nonneg (c : Catenary) (a b : ℝ) :
    0 ≤ boundary_error c a b := by
  unfold boundary_error
  by_cases h : a = 0
  · rw [if_pos h]
    norm_num [INF]
  · rw [if_neg h]
    exact add_nonneg (abs_nonneg _) (abs_nonneg _)

/-- A round whose baseline already undercuts every candidate changes
nothing. -/
theorem scanRound_no_improve (f : α → α → α) (a b stp e : α)
    (h : ∀ x y, e ≤ f x y) : scanRound f a b stp e = ⟨e, a, b, false⟩ := by
  rw [scanRound_eq_selList]
  exact selList_no_improve f _ _ fun c _ => not_lt.mpr (h c.1 c.2)

/-! ### Claim theorems -/

/-- C1: In every round of `fit_parameters`, the nine candidates
`(a-step,b-step), (a-step,b), (a-step,b+step), (a,b-step), (a,b), (a,b+step),
(a+step,b-step), (a+step,b), (a+step,b+step)` are scanned in exactly this
order with the comparison baseline seeded at the round's incoming error, a
candidate becomes the round's best only on a strictly lower boundary error —
so on ties the first candidate in this order achieving the strictly lowest
value wins — and `(a, b, error)` change only if some candidate strictly
improved: the source round `scanRound` coincides with the spec-side
description `specRound`. -/
theorem round_first_strict_min (c : Catenary) (a b stp e : ℝ) :
    scanRound (boundary_error c) a b stp e =
      specRound (boundary_error c) a b stp e := by
  rw [scanRound_eq_selList, selList_eq_specSel]
  rfl

/-- C2: for every state and every candidate pair `(a, b)` raising no numeric
fault (over the reals: `a ≠ 0`), `_boundary_error` returns
`|a·cosh((0−b)/a) − diameter/2| + |a·cosh((span−b)/a) − diameter/2|`. -/
theorem boundary_error_formula (c : Catenary) (a b : ℝ) (h : a ≠ 0) :
    boundary_error c a b =
      |a * Real.cosh ((0 - b) / a) - c.diameter / 2| +
        |a * Real.cosh ((c.span - b) / a) - c.diameter / 2| := by
  unfold boundary_error
  rw [if_neg h]

/-- Witness for C2 at the concrete state (diameter 1, span 1) and candidate
`(a, b) = (1, 0)`. -/
theorem boundary_error_formula_witness :
    boundary_error ⟨1, 1, 1, 1⟩ 1 0 =
      |(1:ℝ) * Real.cosh ((0 - 0) / 1) - 1 / 2| +
        |(1:ℝ) * Real.cosh ((1 - 0) / 1) - 1 / 2| :=
  boundary_error_formula ⟨1, 1, 1, 1⟩ 1 0 (by norm_num)

/-- C3: an arithmetic fault in the boundary-error evaluation (over the
reals: the division by zero at `a = 0`) yields the sentinel `1e12` instead
of propagating, and a candidate scoring the sentinel is never adopted over
an incumbent whose best error is at most the sentinel, since adoption
requires a strictly lower error. -/
theorem boundary_error_sentinel :
    (∀ (c : Catenary) (b : ℝ), boundary_error c 0 b = INF) ∧
      ∀ (c : Catenary) (r : RoundState ℝ) (ca cb : ℝ),
        boundary_error c ca cb = INF → r.bestError ≤ INF →
          scanCandidate (boundary_error c) r ca cb = r := by
  constructor
  · intro c b
    unfold boundary_error
    rw [if_pos rfl]
  · intro c r ca cb h1 h2
    unfold scanCandidate
    rw [h1]
    exact if_neg (not_lt.mpr h2)

/-- Witness for C3: the faulting candidate `a = 0` scores the sentinel, and
such a candidate is rejected against an incumbent with best error 3. -/
theorem boundary_error_sentinel_witness :
    boundary_error ⟨1, 1, 1, 1⟩ 0 5 = INF ∧
      scanCandidate (boundary_error ⟨1, 1, 1, 1⟩) ⟨3, 1, 1, false⟩ 0 5 =
        ⟨3, 1, 1, false⟩ :=
  ⟨boundary_error_sentinel.1 ⟨1, 1, 1, 1⟩ 5,
    boundary_error_sentinel.2 ⟨1, 1, 1, 1⟩ ⟨3, 1, 1, false⟩ 0 5
      (boundary_error_sentinel.1 ⟨1, 1, 1, 1⟩ 5)
      (show (3:ℝ) ≤ INF by norm_num [INF])⟩

/-- C4: every exit of the search loop returns the pair `(a, b)` of the
current loop state, and it happens either because `error ≤ precision` or
because a round brought no strict improvement and the shrunken step fell
below the precision; on the latter, exhaustion, exit the returned pair can
still score worse than the precision, as the concrete run over `ℚ` with a
constant boundary error 5 and precision 1/2 shows. -/
theorem fit_exit_paths :
    (∀ (β : Type) [LinearOrderedField β] (f : β → β → β) (p : β)
        (s : LoopState β) (q : β × β),
        fitNext f p s = Sum.inr q →
          q = (s.a, s.b) ∧
            (s.error ≤ p ∨
              ((scanRound f s.a s.b s.step s.error).improved = false ∧
                s.step / STEP_REDUCTION_FACTOR < p))) ∧
      fitLoop (fun _ _ => (5:ℚ)) (1 / 2) 5
          ⟨DEFAULT_STEP, INF, DEFAULT_A, DEFAULT_B⟩ = some (9 / 10, 9 / 10) ∧
        (1:ℚ) / 2 < 5 := by
  refine ⟨?_,
    by
      norm_num [fitLoop, fitNext, scanRound, scanCandidate, DEFAULT_STEP, INF,
        DEFAULT_A, DEFAULT_B, STEP_REDUCTION_FACTOR],
    by norm_num⟩
  intro β _ f p s q h
  simp only [fitNext] at h
  split_ifs at h with h0 h1 h2
  · -- exhaustion exit: the round did not improve and the step fell below p
    have hq := Sum.inr.inj h
    have h1' : (scanRound f s.a s.b s.step s.error).improved = false := by
      simpa using h1
    exact ⟨hq.symm, Or.inr ⟨h1', h2⟩⟩
  · -- precision exit
    have hq := Sum.inr.inj h
    exact ⟨hq.symm, Or.inl (not_lt.mp h0)⟩

/-- Witness for C4 at a concrete precision-satisfied exit over `ℚ`. -/
theorem fit_exit_paths_witness :
    ((1:ℚ), (1:ℚ)) = ((1:ℚ), (1:ℚ)) ∧
      ((1:ℚ) ≤ 2 ∨
        ((scanRound (fun _ _ => (5:ℚ)) 1 1 (1 / 10) 1).improved = false ∧
          (1:ℚ) / 10 / STEP_REDUCTION_FACTOR < 2)) :=
  fit_exit_paths.1 ℚ (fun _ _ => (5:ℚ)) 2 ⟨1 / 10, 1, 1, 1⟩ (1, 1)
    (by norm_num [fitNext])

/-- C5: across successive rounds of the search loop the running error never
increases: an iteration that continues the loop either strictly decreased
the error by adopting an improving candidate (keeping the step), or left
`(a, b, error)` unchanged and divided the step by 10. -/
theorem error_nonincreasing (c : Catenary) (p : ℝ) (s s' : LoopState ℝ)
    (h : fitNext (boundary_error c) p s = Sum.inl s') :
    s'.error ≤ s.error ∧
      ((s'.error < s.error ∧ s'.step = s.step) ∨
        (s'.error = s.error ∧ s'.a = s.a ∧ s'.b = s.b ∧
          s'.step = s.step / STEP_REDUCTION_FACTOR)) := by
  simp only [fitNext] at h
  split_ifs at h with h0 h1 h2
  · -- an improving round was adopted
    obtain rfl := Sum.inl.inj h
    rcases scanRound_cases (boundary_error c) s.a s.b s.step s.error with
      hcase | ⟨_, hlt⟩
    · rw [hcase] at h1
      exact absurd h1 (by simp)
    · exact ⟨hlt.le, Or.inl ⟨hlt, rfl⟩⟩
  · -- no improvement: the step shrinks, everything else is kept
    obtain rfl := Sum.inl.inj h
    exact ⟨le_refl _, Or.inr ⟨rfl, rfl, rfl, rfl⟩⟩

/-- Witness for C5 at a concrete continuing iteration: error 0, precision
−1, where no candidate can improve, so the step shrinks. -/
theorem error_nonincreasing_witness :
    (0:ℝ) ≤ 0 ∧
      (((0:ℝ) < 0 ∧ (DEFAULT_STEP : ℝ) / STEP_REDUCTION_FACTOR = DEFAULT_STEP) ∨
        ((0:ℝ) = 0 ∧ (1:ℝ) = 1 ∧ (1:ℝ) = 1 ∧
          (DEFAULT_STEP : ℝ) / STEP_REDUCTION_FACTOR =
            DEFAULT_STEP / STEP_REDUCTION_FACTOR)) :=
  error_nonincreasing ⟨1, 1, 1, 1⟩ (-1) ⟨DEFAULT_STEP, 0, 1, 1⟩
    ⟨DEFAULT_STEP / STEP_REDUCTION_FACTOR, 0, 1, 1⟩ (by
      have hno : scanRound (boundary_error ⟨1, 1, 1, 1⟩) 1 1 DEFAULT_STEP 0 =
          ⟨0, 1, 1, false⟩ :=
        scanRound_no_improve _ _ _ _ _ fun x y => boundary_error_nonneg _ x y
      simp only [fitNext, hno]
      norm_num [DEFAULT_STEP, STEP_REDUCTION_FACTOR])

/-- C6: `midpoint_gap()` is exactly twice `midpoint_radius()`, for every
state whatsoever — a structural identity independent of any fit. -/
theorem midpoint_gap_eq_two_mul_radius (c : Catenary) :
    midpoint_gap c = 2 * midpoint_radius c := rfl

/-- Function `fit_parameters` reads the state only through `diameter` and `span`:
states agreeing on those fit identically. -/
theorem fit_parameters_congr (c1 c2 : Catenary) (hd : c1.diameter = c2.diameter)
    (hs : c1.span = c2.span) (p : ℝ) (fuel : ℕ) :
    fit_parameters c1 p fuel = fit_parameters c2 p fuel := by
  obtain ⟨d1, s1, a1, b1⟩ := c1
  obtain ⟨d2, s2, a2, b2⟩ := c2
  dsimp only at hd hs
  subst hd
  subst hs
  rfl

/-- C7: running `fit_parameters` a second time with the same precision on
the state mutated by the first run returns the same `(a, b)` (and leaves
the state unchanged): the search is deterministic and restarts from
constants. -/
theorem fit_parameters_idempotent (c : Catenary) (p : ℝ) (fuel : ℕ)
    (c' : Catenary) (a b : ℝ)
    (h : fit_parameters c p fuel = some (c', a, b)) :
    fit_parameters c' p fuel = some (c', a, b) := by
  unfold fit_parameters at h
  rcases hl : fitLoop (boundary_error c) p fuel
      ⟨DEFAULT_STEP, INF, DEFAULT_A, DEFAULT_B⟩ with _ | ab
  · rw [hl] at h
    exact absurd h (by simp)
  · rw [hl] at h
    obtain ⟨av, bv⟩ := ab
    simp only [Option.some.injEq, Prod.mk.injEq] at h
    obtain ⟨hc', ha, hb⟩ := h
    subst ha
    subst hb
    subst hc'
    rw [fit_parameters_congr { c with a := av, b := bv } c rfl rfl p fuel]
    unfold fit_parameters
    rw [hl]

/-- Witness for C7: with precision `1e12` the loop exits at once, returning
the default `(1, 1)` and overwriting the state's previous `(5, 7)`. -/
theorem fit_parameters_idempotent_witness :
    fit_parameters ⟨1, 1, 1, 1⟩ INF 1 = some (⟨1, 1, 1, 1⟩, 1, 1) :=
  fit_parameters_idempotent ⟨1, 1, 5, 7⟩ INF 1 ⟨1, 1, 1, 1⟩ 1 1 (by
    simp [fit_parameters, fitLoop, fitNext, DEFAULT_STEP, DEFAULT_A, DEFAULT_B])

/-- C8 fails as stated: a state with `a = 1 > 0` but `span = 0` has
`area_under_curve() = π·1²·(sinh 0 + 0) = 0`, which is not strictly
positive. -/
theorem area_claim_counterexample :
    (0:ℝ) < (⟨1, 0, 1, 1⟩ : Catenary).a ∧
      ¬ (0:ℝ) < area_under_curve ⟨1, 0, 1, 1⟩ := by
  constructor
  · exact one_pos
  · unfold area_under_curve
    norm_num [Real.sinh_zero]

/-- C8 amended: whenever `a > 0` and additionally `span > 0`,
`area_under_curve() = π·a²·(sinh(span/a) + span/a)` is strictly positive. -/
theorem area_pos_of_pos (c : Catenary) (ha : 0 < c.a) (hs : 0 < c.span) :
    0 < area_under_curve c := by
  unfold area_under_curve
  have hx : 0 < c.span / c.a := div_pos hs ha
  have hsinh : 0 < Real.sinh (c.span / c.a) := Real.sinh_pos_iff.mpr hx
  have hsum : 0 < Real.sinh (c.span / c.a) + c.span / c.a := by linarith
  exact mul_pos (mul_pos Real.pi_pos (pow_pos ha 2)) hsum

/-- Witness for C8 amended at diameter 1, span 1, `(a, b) = (1, 1)`. -/
theorem area_pos_witness : 0 < area_under_curve ⟨1, 1, 1, 1⟩ :=
  area_pos_of_pos ⟨1, 1, 1, 1⟩ one_pos one_pos

/-- C9 fails as stated: at the state (diameter 0, span 0, a 1, b 1) the
value of `midpoint_radius()` — `cosh 1` — appears in no printed line of the
summary, so the summary does not report the midpoint radius. -/
theorem summary_omits_midpoint_radius :
    midpoint_radius ⟨0, 0, 1, 1⟩ ∉
      (summary ⟨0, 0, 1, 1⟩).flatMap SummaryLine.values := by
  have hrad : midpoint_radius ⟨0, 0, 1, 1⟩ = Real.cosh 1 := by
    unfold midpoint_radius
    norm_num [Real.cosh_neg]
  have harea : area_under_curve ⟨0, 0, 1, 1⟩ = 0 := by
    unfold area_under_curve
    norm_num [Real.sinh_zero]
  have hdip : midpoint_dip ⟨0, 0, 1, 1⟩ = -Real.cosh 1 := by
    unfold midpoint_dip
    rw [hrad]
    norm_num
  have hgap : midpoint_gap ⟨0, 0, 1, 1⟩ = 2 * Real.cosh 1 := by
    unfold midpoint_gap
    rw [hrad]
  have hone : (1:ℝ) < Real.cosh 1 := Real.one_lt_cosh.mpr one_ne_zero
  have hzero : (0:ℝ) < Real.cosh 1 := Real.cosh_pos 1
  intro hmem
  rw [hrad] at hmem
  simp only [summary, List.flatMap_cons, List.flatMap_nil, List.append_nil,
    List.cons_append, List.nil_append, List.mem_cons, List.not_mem_nil,
    or_false] at hmem
  rcases hmem with h | h | h | h | h | h | h
  · linarith
  · linarith
  · linarith
  · linarith
  · rw [harea] at h
    linarith
  · rw [hdip] at h
    linarith
  · rw [hgap] at h
    linarith

/-- C9 amended: the summary reports the diameter and span (plain
formatting), the parameters `(a, b)` to 7 decimal places, and the three
derived quantities area under curve, midpoint dip and midpoint gap to 7
decimal places; the midpoint radius is not among the reported lines. -/
theorem summary_reports (c : Catenary) :
    summary c =
      [⟨"Catenary for diameter _ and span _:", [c.diameter, c.span], none⟩,
       ⟨"  Parameters (a, b): (_, _)", [c.a, c.b], some 7⟩,
       ⟨"  Area under curve: _", [area_under_curve c], some 7⟩,
       ⟨"  Midpoint dip: _", [midpoint_dip c], some 7⟩,
       ⟨"  Midpoint gap: _", [midpoint_gap c], some 7⟩] := rfl

/-- C10: `fit_parameters` restarts from the constants `(a, b) = (1, 1)`,
`step = 0.1`, `error = 1e12` and never reads the instance's current `a`
and `b`: two states with equal diameter and span fit to identical results,
whatever their `a` and `b` fields hold. -/
theorem fit_ignores_initial_ab (d s a1 b1 a2 b2 p : ℝ) (fuel : ℕ) :
    fit_parameters ⟨d, s, a1, b1⟩ p fuel = fit_parameters ⟨d, s, a2, b2⟩ p fuel :=
  fit_parameters_congr _ _ rfl rfl p fuel

end BubbleCosh
